import Mathlib

/-!
Verification development for the PennyLane CERN tutorial repository,
notebook src/2-differentiable-quantum-computing.ipynb.

The notebook defines a handful of small Python functions around calls into
the external PennyLane library:

  def model_with_bias(x, w, b):
      return quantum_model(x, w) + b

  def loss(a, b):
      return (a - b)**2

  def average_loss(w, b, data):
      c = 0
      for x, y in data:
          prediction = model_with_bias(x, w, b)
          c += loss(prediction, y)
      return c/len(data)

and a hand-coded gradient-descent training loop

  for i in range(15):
      w_new = w - 0.05*gradient_fn_w(w, b, data)
      b_new = b - 0.05*gradient_fn_b(w, b, data)
      w = w_new
      b = b_new

We embed these shallowly.  Numeric values live in an arbitrary linear
ordered field R (instantiable by the rationals for concrete evaluation;
the Python floats are idealised as exact field elements).  The external
library call quantum_model is an abstract function that either returns a
value or raises an error, hence has type X -> W -> Except Err R; Python
division, which raises ZeroDivisionError on a zero denominator, is
embedded as the fallible operation pydiv.  The gradient functions
returned by qml.grad are likewise abstract parameters.
-/

set_option linter.unusedSectionVars false

namespace PennyLaneDemoCern

section ModelFunctions

variable {R : Type} [LinearOrderedField R] [DecidableEq R]
variable {X W Err : Type}

/-- Embedding of the notebook function model_with_bias: call the (fallible)
library-provided quantum_model and add the bias to its result; an error in
the call propagates to the caller as Python exceptions do. -/
def model_with_bias (quantum_model : X → W → Except Err R)
    (x : X) (w : W) (b : R) : Except Err R :=
  match quantum_model x w with
  | .error e => .error e
  | .ok p => .ok (p + b)

/-- Embedding of the notebook function loss: the squared difference. -/
def loss (a b : R) : R := (a - b) ^ 2

/-- Embedding of Python division: raises ZeroDivisionError (the abstract
error value zd) when the denominator is zero, otherwise divides. -/
def pydiv (zd : Err) (a b : R) : Except Err R :=
  if b = 0 then .error zd else .ok (a / b)

/-- Embedding of the accumulation loop inside average_loss: starting from
the accumulator c, fold over the remaining data, adding
loss(model_with_bias(x, w, b), y) for each sample; an error raised by the
library call aborts the loop and propagates. -/
def sum_loss (quantum_model : X → W → Except Err R) (w : W) (b : R) :
    R → List (X × R) → Except Err R
  | c, [] => .ok c
  | c, (x, y) :: rest =>
    match model_with_bias quantum_model x w b with
    | .error e => .error e
    | .ok prediction => sum_loss quantum_model w b (c + loss prediction y) rest

/-- Embedding of the notebook function average_loss: run the accumulation
loop from c = 0 over the whole dataset, then divide by len(data) with
Python division semantics. -/
def average_loss (quantum_model : X → W → Except Err R) (zd : Err)
    (w : W) (b : R) (data : List (X × R)) : Except Err R :=
  match sum_loss quantum_model w b 0 data with
  | .error e => .error e
  | .ok c => pydiv zd c (data.length : R)

end ModelFunctions

section TrainingLoop

variable {R : Type} [LinearOrderedField R]
variable {W D : Type} [AddCommGroup W] [Module R W]

/-- Embedding of the body of the hand-coded training loop, with the local
bindings in source order: w_new is bound first, b_new second, and both
right-hand sides read the ORIGINAL w and b (the reassignments w = w_new,
b = b_new happen only after both gradients are computed).  The learning
rate 0.05 is the field element 5/100.  The gradient functions returned by
qml.grad(average_loss, argnum) are abstract: gradient_fn_w and
gradient_fn_b take the current (w, b, data) exactly as in the source. -/
def training_step (gradient_fn_w : W → R → D → W) (gradient_fn_b : W → R → D → R)
    (data : D) (w : W) (b : R) : W × R :=
  let w_new := w - (5 / 100 : R) • gradient_fn_w w b data
  let b_new := b - (5 / 100 : R) * gradient_fn_b w b data
  (w_new, b_new)

/-- Embedding of the hand-coded training loop for i in range(n): iterate
training_step n times from the initial pair. -/
def training_loop (gradient_fn_w : W → R → D → W) (gradient_fn_b : W → R → D → R)
    (data : D) : ℕ → W × R → W × R
  | 0, wb => wb
  | n + 1, wb =>
    training_loop gradient_fn_w gradient_fn_b data n
      (training_step gradient_fn_w gradient_fn_b data wb.1 wb.2)

/-- Modelled from the spec: the external gradient-descent optimizer is not
part of this repository; the spec describes its step as calling the
gradient function and subtracting a scaled gradient from the parameters,
and step_and_cost additionally returns the cost at the pre-step
parameters.  stepsize is the scale; the parameters are the pair (w, b). -/
def GradientDescentOptimizer_step_and_cost (stepsize : R) (cost : W → R → R)
    (gradw : W → R → W) (gradb : W → R → R) (w : W) (b : R) : (W × R) × R :=
  ((w - stepsize • gradw w b, b - stepsize * gradb w b), cost w b)

end TrainingLoop

section LocalsThreading

variable {R : Type} [LinearOrderedField R] [DecidableEq R]
variable {X W Err : Type}

/-- The complete mutable state of the average_loss loop body in Python:
its local variables c, w, b and data.  The body only ever rebinds c; the
embedding threads the whole record so that this is a theorem, not an
assumption. -/
structure Locals (R W X : Type) where
  c : R
  w : W
  b : R
  data : List (X × R)

/-- The average_loss loop with every local variable threaded explicitly:
each iteration evaluates model_with_bias on the CURRENT locals and
produces the next locals record. -/
def run_loop (quantum_model : X → W → Except Err R) :
    Locals R W X → List (X × R) → Except Err (Locals R W X)
  | st, [] => .ok st
  | st, (x, y) :: rest =>
    match model_with_bias quantum_model x st.w st.b with
    | .error e => .error e
    | .ok prediction =>
      run_loop quantum_model { st with c := st.c + loss prediction y } rest

/-- average_loss with the full local environment made explicit: run the
loop from the initial locals (c = 0 and the arguments), then divide the
accumulator by the length of the LOCAL data variable, and return the
result together with the final values of w, b and data. -/
def average_loss_locals (quantum_model : X → W → Except Err R) (zd : Err)
    (w : W) (b : R) (data : List (X × R)) :
    Except Err (R × W × R × List (X × R)) :=
  match run_loop quantum_model ⟨0, w, b, data⟩ data with
  | .error e => .error e
  | .ok st =>
    match pydiv zd st.c (st.data.length : R) with
    | .error e => .error e
    | .ok r => .ok (r, st.w, st.b, st.data)

end LocalsThreading

section EvaluationRelation

variable {R : Type} [LinearOrderedField R] [DecidableEq R]
variable {X W Err : Type}

/-- Big-step evaluation relation for the accumulation loop of
average_loss, mirroring sum_loss derivation by derivation: from
accumulator c and remaining data, the loop either finishes with the final
accumulator, takes a step after a successful library call, or aborts with
the error the library call raised. -/
inductive SumEval (quantum_model : X → W → Except Err R) (w : W) (b : R) :
    R → List (X × R) → Except Err R → Prop
  | nil (c : R) : SumEval quantum_model w b c [] (.ok c)
  | step {x : X} {y c p : R} {rest : List (X × R)} {out : Except Err R} :
      quantum_model x w = .ok p →
      SumEval quantum_model w b (c + loss (p + b) y) rest out →
      SumEval quantum_model w b c ((x, y) :: rest) out
  | fail {x : X} {y c : R} {rest : List (X × R)} {e : Err} :
      quantum_model x w = .error e →
      SumEval quantum_model w b c ((x, y) :: rest) (.error e)

/-- Big-step evaluation relation for average_loss: run the loop from 0;
on success divide by len(data) with Python semantics, on error propagate. -/
inductive AvgEval (quantum_model : X → W → Except Err R) (zd : Err)
    (w : W) (b : R) : List (X × R) → Except Err R → Prop
  | ok {data : List (X × R)} {c : R} {out : Except Err R} :
      SumEval quantum_model w b 0 data (.ok c) →
      pydiv zd c (data.length : R) = out →
      AvgEval quantum_model zd w b data out
  | fail {data : List (X × R)} {e : Err} :
      SumEval quantum_model w b 0 data (.error e) →
      AvgEval quantum_model zd w b data (.error e)

end EvaluationRelation

section NotebookCells

/-- The state of the default.qubit device on two wires: a vector of four
amplitudes indexed by the basis states 00, 01, 10, 11.  Every circuit the
relevant cells run is real-valued, so real amplitudes suffice. -/
def Qstate : Type := Fin 4 → ℝ

/-- The reset state of the device: the basis state 00. -/
def initState : Qstate := fun i => if i = 0 then 1 else 0

/-- The notebook constant s = 1/np.sqrt(2). -/
noncomputable def s : ℝ := 1 / Real.sqrt 2

/-- The notebook matrix U (a two-qubit unitary built from s). -/
noncomputable def U : Fin 4 → Fin 4 → ℝ :=
  ![![0, -s, 0, s], ![s, 0, -s, 0], ![s, 0, s, 0], ![0, -s, 0, -s]]

/-- Apply a 4x4 matrix to a device state. -/
noncomputable def applyMatrix (M : Fin 4 → Fin 4 → ℝ) (ψ : Qstate) : Qstate :=
  fun i => ∑ j, M i j * ψ j

/-- The circuit cells that precede the dev.state cells: the empty circuit
(the cell whose qnode applies no gate and returns qml.probs) and the
QubitUnitary U circuit. -/
inductive NotebookCell : Type
  | circuitEmpty : NotebookCell
  | circuitU : NotebookCell

/-- Executing a circuit cell on the device: a qnode call resets the device
to the 00 state and applies the gates of the circuit, so the resulting
device state does not depend on the state the device held before, only on
which circuit ran. -/
noncomputable def runCell : NotebookCell → Qstate → Qstate
  | .circuitEmpty, _ => initState
  | .circuitU, _ => applyMatrix U initState

/-- Executing a list of circuit cells in order, starting from a device
state. -/
noncomputable def runCells (cells : List NotebookCell) (d : Qstate) : Qstate :=
  cells.foldl (fun d c => runCell c d) d

/-- The value displayed by a dev.state cell after the given earlier
circuit cells have executed (the device starts in the reset state). -/
noncomputable def dev_state (history : List NotebookCell) : Qstate :=
  runCells history initState

end NotebookCells

/-! ## Helper lemmas -/

section Helpers

variable {R : Type} [LinearOrderedField R] [DecidableEq R]
variable {X W Err : Type}

/-- The accumulation loop keeps a nonnegative accumulator nonnegative:
every increment is a squared difference. -/
theorem sum_loss_nonneg (quantum_model : X → W → Except Err R) (w : W) (b : R) :
    ∀ (l : List (X × R)) (c c' : R), 0 ≤ c →
      sum_loss quantum_model w b c l = .ok c' → 0 ≤ c' := by
  intro l
  induction l with
  | nil =>
    intro c c' hc h
    simp only [sum_loss] at h
    cases h
    exact hc
  | cons p rest ih =>
    intro c c' hc h
    obtain ⟨x, y⟩ := p
    simp only [sum_loss] at h
    cases hq : model_with_bias quantum_model x w b with
    | error e => rw [hq] at h; cases h
    | ok prediction =>
      rw [hq] at h
      exact ih _ _ (add_nonneg hc (sq_nonneg _)) h

/-- If every sample of a prefix succeeds and the next library call raises
e, the accumulation loop returns the error e, whatever the accumulator. -/
theorem sum_loss_error_at (quantum_model : X → W → Except Err R) (w : W) (b : R)
    (x : X) (y : R) (post : List (X × R)) (e : Err)
    (hx : quantum_model x w = .error e) :
    ∀ (pre : List (X × R)) (c : R),
      (∀ p ∈ pre, ∃ v, quantum_model p.1 w = .ok v) →
      sum_loss quantum_model w b c (pre ++ (x, y) :: post) = .error e := by
  intro pre
  induction pre with
  | nil =>
    intro c _
    simp only [List.nil_append, sum_loss, model_with_bias, hx]
  | cons p rest ih =>
    intro c hpre
    obtain ⟨x₀, y₀⟩ := p
    obtain ⟨v, hv⟩ := hpre (x₀, y₀) (List.mem_cons_self _ _)
    simp only [List.cons_append, sum_loss, model_with_bias, hv]
    exact ih _ (fun q hq => hpre q (List.mem_cons_of_mem _ hq))

/-- The locals-threading loop never changes the locals w, b and data, and
its accumulator agrees with sum_loss run at those locals. -/
theorem run_loop_frame (quantum_model : X → W → Except Err R) :
    ∀ (l : List (X × R)) (st st' : Locals R W X),
      run_loop quantum_model st l = .ok st' →
      st'.w = st.w ∧ st'.b = st.b ∧ st'.data = st.data ∧
        sum_loss quantum_model st.w st.b st.c l = .ok st'.c := by
  intro l
  induction l with
  | nil =>
    intro st st' h
    simp only [run_loop] at h
    cases h
    exact ⟨rfl, rfl, rfl, rfl⟩
  | cons p rest ih =>
    intro st st' h
    obtain ⟨x, y⟩ := p
    simp only [run_loop] at h
    cases hq : model_with_bias quantum_model x st.w st.b with
    | error e => rw [hq] at h; cases h
    | ok prediction =>
      rw [hq] at h
      obtain ⟨hw, hb, hd, hsum⟩ := ih _ _ h
      refine ⟨hw, hb, hd, ?_⟩
      simp only [sum_loss, hq]
      exact hsum

/-- Adequacy of the loop evaluation relation: the relation relates every
accumulator and remaining list to what sum_loss computes there. -/
theorem sumEval_adequate (quantum_model : X → W → Except Err R) (w : W) (b : R) :
    ∀ (l : List (X × R)) (c : R),
      SumEval quantum_model w b c l (sum_loss quantum_model w b c l) := by
  intro l
  induction l with
  | nil => intro c; exact SumEval.nil c
  | cons p rest ih =>
    intro c
    obtain ⟨x, y⟩ := p
    cases hq : quantum_model x w with
    | error e =>
      have : sum_loss quantum_model w b c ((x, y) :: rest) = .error e := by
        simp only [sum_loss, model_with_bias, hq]
      rw [this]
      exact SumEval.fail hq
    | ok p =>
      have : sum_loss quantum_model w b c ((x, y) :: rest) =
          sum_loss quantum_model w b (c + loss (p + b) y) rest := by
        simp only [sum_loss, model_with_bias, hq]
      rw [this]
      exact SumEval.step hq (ih _)

/-- The loop evaluation relation is functional: two derivations
from the same accumulator and list reach the same outcome. -/
theorem sumEval_deterministic (quantum_model : X → W → Except Err R) (w : W) (b : R) :
    ∀ {c : R} {l : List (X × R)} {o₁ o₂ : Except Err R},
      SumEval quantum_model w b c l o₁ → SumEval quantum_model w b c l o₂ →
      o₁ = o₂ := by
  intro c l o₁ o₂ h₁ h₂
  induction h₁ with
  | nil c => cases h₂; rfl
  | step hq h ih =>
    cases h₂ with
    | step hq' h' =>
      rw [hq] at hq'
      cases hq'
      exact ih h'
    | fail hq' => rw [hq] at hq'; cases hq'
  | fail hq =>
    cases h₂ with
    | step hq' h' => rw [hq] at hq'; cases hq'
    | fail hq' => rw [hq] at hq'; cases hq'; rfl

/-- Adequacy of the average_loss evaluation relation. -/
theorem avgEval_adequate (quantum_model : X → W → Except Err R) (zd : Err)
    (w : W) (b : R) (data : List (X × R)) :
    AvgEval quantum_model zd w b data (average_loss quantum_model zd w b data) := by
  cases hs : sum_loss quantum_model w b 0 data with
  | error e =>
    have : average_loss quantum_model zd w b data = .error e := by
      simp only [average_loss, hs]
    rw [this]
    exact AvgEval.fail (hs ▸ sumEval_adequate quantum_model w b data 0)
  | ok c =>
    have : average_loss quantum_model zd w b data = pydiv zd c (data.length : R) := by
      simp only [average_loss, hs]
    rw [this]
    exact AvgEval.ok (hs ▸ sumEval_adequate quantum_model w b data 0) rfl

end Helpers

/-! ## Claim theorems -/

/-- C1: one iteration of the hand-coded training loop produces exactly
w_new = w - 0.05 * gradient_fn_w(w, b, data) and
b_new = b - 0.05 * gradient_fn_b(w, b, data), with both gradients
evaluated at the old pair (w, b) before either parameter is overwritten
(a simultaneous update); the same holds for the iteration the n-fold loop
performs first.  The learning rate 0.05 is the field element 5/100. -/
theorem training_step_is_simultaneous_update {R : Type} [LinearOrderedField R]
    {W D : Type} [AddCommGroup W] [Module R W]
    (gradient_fn_w : W → R → D → W) (gradient_fn_b : W → R → D → R)
    (data : D) (w : W) (b : R) (n : ℕ) :
    training_step gradient_fn_w gradient_fn_b data w b =
      (w - (5 / 100 : R) • gradient_fn_w w b data,
       b - (5 / 100 : R) * gradient_fn_b w b data) ∧
    training_loop gradient_fn_w gradient_fn_b data (n + 1) (w, b) =
      training_loop gradient_fn_w gradient_fn_b data n
        (w - (5 / 100 : R) • gradient_fn_w w b data,
         b - (5 / 100 : R) * gradient_fn_b w b data) :=
  ⟨rfl, rfl⟩

/-- C2: the repository implements no optimizer of its own: one iteration
of the hand-coded loop yields exactly the parameter pair produced by one
step of the gradient-descent optimizer with stepsize 0.05 (modelled from
the spec) applied to the same gradient functions of the same cost, from
the same state (w, b). -/
theorem training_step_refines_optimizer {R : Type} [LinearOrderedField R]
    {W D : Type} [AddCommGroup W] [Module R W]
    (gradient_fn_w : W → R → D → W) (gradient_fn_b : W → R → D → R)
    (cost : W → R → R) (data : D) (w : W) (b : R) :
    training_step gradient_fn_w gradient_fn_b data w b =
      (GradientDescentOptimizer_step_and_cost (5 / 100 : R) cost
        (fun w b => gradient_fn_w w b data)
        (fun w b => gradient_fn_b w b data) w b).1 :=
  rfl

/-- C7: calling average_loss on an empty dataset raises a
division-by-zero error: the loop leaves the accumulator at 0 and the
final division c/len(data) divides by len([]) = 0, which is unguarded. -/
theorem average_loss_empty_data_div_zero {R : Type} [LinearOrderedField R]
    [DecidableEq R] {X W Err : Type}
    (quantum_model : X → W → Except Err R) (zd : Err) (w : W) (b : R) :
    average_loss quantum_model zd w b [] = .error zd := by
  simp [average_loss, sum_loss, pydiv]

/-- C8: model_with_bias(x, w, b) is quantum_model(x, w) + b whenever the
library call returns a value, and the bias 0 is an identity:
model_with_bias(x, w, 0) returns exactly what quantum_model(x, w)
returns. -/
theorem model_with_bias_adds_bias {R : Type} [LinearOrderedField R]
    {X W Err : Type} (quantum_model : X → W → Except Err R) :
    (∀ (x : X) (w : W) (b v : R), quantum_model x w = .ok v →
      model_with_bias quantum_model x w b = .ok (v + b)) ∧
    (∀ (x : X) (w : W), model_with_bias quantum_model x w 0 = quantum_model x w) := by
  constructor
  · intro x w b v h
    simp [model_with_bias, h]
  · intro x w
    cases h : quantum_model x w with
    | error e => simp [model_with_bias, h]
    | ok v => simp [model_with_bias, h]

/-- Witness for C8 at a concrete input: with the library call returning 2,
the model with bias 3 returns 2 + 3. -/
theorem model_with_bias_adds_bias_witness :
    model_with_bias (fun (_ : Unit) (_ : Unit) => (Except.ok (2 : ℚ) : Except Unit ℚ))
      () () 3 = .ok (2 + 3) :=
  (model_with_bias_adds_bias
    (fun (_ : Unit) (_ : Unit) => (Except.ok (2 : ℚ) : Except Unit ℚ))).1
    () () 3 2 rfl

/-- C9: loss(a, b) = (a - b)^2 is nonnegative and symmetric, and for a
nonempty dataset every value average_loss returns is nonnegative. -/
theorem loss_nonneg_symm_and_average_loss_nonneg {R : Type}
    [LinearOrderedField R] [DecidableEq R] {X W Err : Type}
    (quantum_model : X → W → Except Err R) (zd : Err) :
    (∀ a b : R, 0 ≤ loss a b ∧ loss a b = loss b a) ∧
    (∀ (w : W) (b : R) (data : List (X × R)) (v : R), data ≠ [] →
      average_loss quantum_model zd w b data = .ok v → 0 ≤ v) := by
  constructor
  · intro a b
    constructor
    · exact sq_nonneg _
    · simp only [loss]
      ring
  · intro w b data v hdata h
    cases hs : sum_loss quantum_model w b 0 data with
    | error e =>
      simp only [average_loss, hs] at h
      exact Except.noConfusion h
    | ok c =>
      simp only [average_loss, hs, pydiv] at h
      have hlen : (0 : R) < (data.length : R) := by
        have : 0 < data.length := List.length_pos.mpr hdata
        exact_mod_cast this
      rw [if_neg (ne_of_gt hlen)] at h
      cases h
      exact div_nonneg (sum_loss_nonneg quantum_model w b data 0 c le_rfl hs)
        (le_of_lt hlen)

/-- Witness for C9 at a concrete input: the dataset [((), 2)] with the
library call returning 2 and bias 1 has average loss 1, and the theorem
yields its nonnegativity. -/
theorem loss_nonneg_witness : (0 : ℚ) ≤ 1 :=
  (loss_nonneg_symm_and_average_loss_nonneg
    (fun (_ : Unit) (_ : Unit) => (Except.ok (2 : ℚ) : Except Unit ℚ)) ()).2
    () 1 [((), 2)] 1 (by decide)
    (by norm_num [average_loss, sum_loss, model_with_bias, loss, pydiv])

/-- C3: an error raised by the external library call propagates unchanged
to the caller: model_with_bias returns exactly the error quantum_model
raised, and average_loss returns exactly the error raised at the first
failing sample (every earlier sample having succeeded); no notebook code
catches, transforms or recovers from it. -/
theorem library_errors_propagate_unchanged {R : Type} [LinearOrderedField R]
    [DecidableEq R] {X W Err : Type}
    (quantum_model : X → W → Except Err R) (zd : Err) :
    (∀ (x : X) (w : W) (b : R) (e : Err), quantum_model x w = .error e →
      model_with_bias quantum_model x w b = .error e) ∧
    (∀ (w : W) (b : R) (pre post : List (X × R)) (x : X) (y : R) (e : Err),
      (∀ p ∈ pre, ∃ v, quantum_model p.1 w = .ok v) →
      quantum_model x w = .error e →
      average_loss quantum_model zd w b (pre ++ (x, y) :: post) = .error e) := by
  constructor
  · intro x w b e h
    simp [model_with_bias, h]
  · intro w b pre post x y e hpre hx
    have hs := sum_loss_error_at quantum_model w b x y post e hx pre 0 hpre
    simp only [average_loss, hs]

/-- Witness for C3 at a concrete input: a library call that raises the
error 7 makes both model_with_bias and average_loss (on the one-sample
dataset) return the error 7. -/
theorem library_errors_propagate_unchanged_witness :
    model_with_bias (fun (_ : Unit) (_ : Unit) => (Except.error 7 : Except ℕ ℚ))
      () () 4 = .error 7 ∧
    average_loss (fun (_ : Unit) (_ : Unit) => (Except.error 7 : Except ℕ ℚ))
      0 () 4 [((), 5)] = .error 7 := by
  constructor
  · exact (library_errors_propagate_unchanged
      (fun (_ : Unit) (_ : Unit) => (Except.error 7 : Except ℕ ℚ)) 0).1
      () () 4 7 rfl
  · exact (library_errors_propagate_unchanged
      (fun (_ : Unit) (_ : Unit) => (Except.error 7 : Except ℕ ℚ)) 0).2
      () 4 [] [] () 5 7 (by simp) rfl

/-- C4: evaluating average_loss leaves its arguments unchanged and writes
no state beyond the loop locals: threading the entire local environment
(c, w, b, data) through the loop, every successful run returns w, b and
data exactly as they were passed in, and its value component is exactly
average_loss(w, b, data); the functions allocate no other state, so every
value is ephemeral and passed directly between calls. -/
theorem average_loss_preserves_arguments {R : Type} [LinearOrderedField R]
    [DecidableEq R] {X W Err : Type}
    (quantum_model : X → W → Except Err R) (zd : Err)
    (w : W) (b : R) (data : List (X × R)) (r : R) (w' : W) (b' : R)
    (d' : List (X × R)) :
    average_loss_locals quantum_model zd w b data = .ok (r, w', b', d') →
    w' = w ∧ b' = b ∧ d' = data ∧
      average_loss quantum_model zd w b data = .ok r := by
  intro h
  cases hr : run_loop quantum_model ⟨0, w, b, data⟩ data with
  | error e =>
    simp only [average_loss_locals, hr] at h
    exact Except.noConfusion h
  | ok st =>
    simp only [average_loss_locals, hr] at h
    obtain ⟨hw, hb, hd, hsum⟩ := run_loop_frame quantum_model data _ st hr
    have hd₂ : st.data = data := hd
    cases hp : pydiv zd st.c (st.data.length : R) with
    | error e =>
      simp only [hp] at h
      exact Except.noConfusion h
    | ok r₀ =>
      simp only [hp] at h
      cases h
      refine ⟨hw, hb, hd₂, ?_⟩
      simp only [average_loss, hsum]
      rw [← hd₂]
      exact hp

/-- Witness for C4 at a concrete input: on the one-sample dataset
[((), 3)] with the library call returning 2 and bias 0, the
locals-threading run returns the arguments unchanged together with the
value 1, and the theorem recovers average_loss = 1. -/
theorem average_loss_preserves_arguments_witness :
    ((() : Unit) = () ∧ (0 : ℚ) = 0 ∧ [((() : Unit), (3 : ℚ))] = [((), 3)] ∧
      average_loss (fun (_ : Unit) (_ : Unit) => (Except.ok (2 : ℚ) : Except Unit ℚ))
        () () 0 [((), 3)] = .ok 1) :=
  average_loss_preserves_arguments
    (fun (_ : Unit) (_ : Unit) => (Except.ok (2 : ℚ) : Except Unit ℚ))
    () () 0 [((), 3)] 1 () 0 [((), 3)]
    (by norm_num [average_loss_locals, run_loop, model_with_bias, loss, pydiv])

/-- C5: evaluation of average_loss is deterministic: any two big-step
evaluations of average_loss from the same w, b and data (with the same
deterministic library call quantum_model, itself a function of x and w)
reach the same outcome. -/
theorem average_loss_deterministic {R : Type} [LinearOrderedField R]
    [DecidableEq R] {X W Err : Type}
    (quantum_model : X → W → Except Err R) (zd : Err) (w : W) (b : R)
    (data : List (X × R)) (o₁ o₂ : Except Err R) :
    AvgEval quantum_model zd w b data o₁ → AvgEval quantum_model zd w b data o₂ →
    o₁ = o₂ := by
  intro h₁ h₂
  cases h₁ with
  | ok hs₁ hp₁ =>
    cases h₂ with
    | ok hs₂ hp₂ =>
      have := sumEval_deterministic quantum_model w b hs₁ hs₂
      cases this
      rw [← hp₁, ← hp₂]
    | fail hs₂ =>
      exact Except.noConfusion (sumEval_deterministic quantum_model w b hs₁ hs₂)
  | fail hs₁ =>
    cases h₂ with
    | ok hs₂ hp₂ =>
      exact Except.noConfusion (sumEval_deterministic quantum_model w b hs₁ hs₂)
    | fail hs₂ =>
      have := sumEval_deterministic quantum_model w b hs₁ hs₂
      cases this
      rfl

/-- Witness for C5 at a concrete input: two evaluations of average_loss
on the one-sample dataset [((), 2)] with the library call returning 2 and
bias 2 agree (both are compared through the evaluation relation). -/
theorem average_loss_deterministic_witness :
    average_loss (fun (_ : Unit) (_ : Unit) => (Except.ok (2 : ℚ) : Except Unit ℚ))
        () () 2 [((), 2)] =
      average_loss (fun (_ : Unit) (_ : Unit) => (Except.ok (2 : ℚ) : Except Unit ℚ))
        () () 2 [((), 2)] :=
  average_loss_deterministic
    (fun (_ : Unit) (_ : Unit) => (Except.ok (2 : ℚ) : Except Unit ℚ))
    () () 2 [((), 2)] _ _
    (avgEval_adequate _ () () 2 [((), 2)])
    (avgEval_adequate _ () () 2 [((), 2)])

/-- The notebook constant s is nonzero (it is 1 over the positive square
root of 2). -/
theorem s_ne_zero : s ≠ 0 := by
  have h : (0 : ℝ) < Real.sqrt 2 := Real.sqrt_pos.mpr (by norm_num)
  exact one_div_ne_zero (ne_of_gt h)

/-- After the QubitUnitary U circuit cell, the amplitude of the basis
state 01 held by the device is s (the notebook displays the vector
[0, 0.70710678, 0.70710678, 0] for dev.state there). -/
theorem dev_state_after_circuitU : dev_state [NotebookCell.circuitU] 1 = s := by
  show applyMatrix U initState 1 = s
  rw [applyMatrix, Fin.sum_univ_four]
  norm_num [U, initState]
  intro h
  exact absurd h (by decide)

/-- After the empty circuit cell, the amplitude of the basis state 01
held by the device is 0 (the notebook displays [1, 0, 0, 0] for
dev.state there). -/
theorem dev_state_after_circuitEmpty :
    dev_state [NotebookCell.circuitEmpty] 1 = 0 := by
  show initState 1 = 0
  norm_num [initState]

/-- C6 counterexample: the notebook cells are NOT independent.  The value
a dev.state cell computes differs between two execution histories of the
earlier circuit cells: after the QubitUnitary U cell the device state is
not the state it has after the empty-circuit cell (their amplitudes at
the basis state 01 are 1/sqrt 2 and 0). -/
theorem dev_state_depends_on_earlier_cells :
    dev_state [NotebookCell.circuitU] ≠ dev_state [NotebookCell.circuitEmpty] := by
  intro h
  have h₁ := congrFun h 1
  rw [dev_state_after_circuitU, dev_state_after_circuitEmpty] at h₁
  exact s_ne_zero h₁

/-- C6 (amended): the value computed by a dev.state cell is the device
state left by the most recently executed circuit cell, so it depends on
which earlier cells were executed: after the QubitUnitary U circuit cell
the amplitude of the basis state 01 is the nonzero number s = 1/sqrt 2,
while after the empty-circuit cell it is 0. -/
theorem dev_state_reflects_last_circuit :
    (∀ (history : List NotebookCell) (cell : NotebookCell) (d : Qstate),
      runCells (history ++ [cell]) d = runCell cell (runCells history d)) ∧
    dev_state [NotebookCell.circuitU] 1 = s ∧
    dev_state [NotebookCell.circuitEmpty] 1 = 0 ∧
    s ≠ 0 := by
  refine ⟨?_, dev_state_after_circuitU, dev_state_after_circuitEmpty, s_ne_zero⟩
  intro history cell d
  simp [runCells, List.foldl_append]

end PennyLaneDemoCern
